import Mathlib

/-!
Shallow embedding of `lsst-sims/sims_speedObservatory`
(`python/lsst/sims/speedObservatory/speed_observatory.py`).

The `Speed_observatory` Python object is split into an immutable `Config`
(constructor parameters and the tables built once in `__init__`) and the
mutable `Obs` state (`self.mjd`, `self.night`, `self.ra`, `self.dec`,
`self.filtername`, `self.status`).  Python floats are modelled as exact
rationals; external collaborators (sky model, slew interpolator, cloud
model, seeing model, ephemeris, healpix, photometric depth) are modelled
as pure function fields of `Config`, matching the spec's provider
interfaces.  Fallible paths (a `None` dereference of the cached status
dictionary) are modelled with `Except`.
-/

namespace SpeedObs

/-- Seconds-to-days conversion constant from the source module:
`sec2days = 1./(3600.*24.)`. -/
def sec2days : ℚ := 1 / (3600 * 24)

/-- The fixed filter set of the status dictionary: `return_status`
builds its `FWHMeff_%s` / `FWHM_geometric_%s` entries by looping over
exactly these names (source line 242). -/
def supported_filters : List String := ["u", "g", "r", "i", "z", "y"]

/-- The cached status dictionary built by `return_status` (source lines
226-266), restricted to the entries that the modelled core paths read
back on the commit path of `attempt_observe` (`FWHMeff_*`,
`FWHM_geometric_*`, `airmass`, `clouds`, `sunAlt`, `moonAlt`) plus the
snapshot instant and night.  Entries never read by a modelled path
(lmst, the slew-time map, twilight instants, moon azimuth/phase,
per-filter sky brightness) are omitted; per-pixel arrays are modelled
as functions from the healpix id.  The per-filter entries are dict
lookups keyed only by `supported_filters`, so they are `Option`-valued:
`none` is the `KeyError` the source raises at
`self.status['FWHMeff_%s' % f]` for any other filter string. -/
structure Status where
  mjd : ℚ
  night : ℕ
  clouds : ℚ
  sunAlt : ℚ
  moonAlt : ℚ
  airmass : ℕ → ℚ
  fwhm_eff : String → ℕ → Option ℚ
  fwhm_geom : String → ℕ → Option ℚ

/-- Immutable configuration of `Speed_observatory.__init__`: numeric
parameters (`cloud_step` already converted from minutes to days, as the
constructor does with `cloud_step/60./24.`), the tables computed once
(`setting_sun_mjds`, `down_nights`, and the precomputed sky timeline
`sky.info` modelled as a list of `(mjd, sunAlt)` pairs, zipping the
parallel arrays `sky.info['mjds']` and `sky.info['sunAlts']`), and the
external providers as pure functions:
`cloud_model` is `CloudModel.get_cloud` (elapsed seconds to fraction),
`sun_alt` is the ephem solar altitude at an mjd,
`radec2altaz` is `_approx_RaDec2AltAz` at the site (ra, dec, mjd),
`slew_interp` is the `Slewtime_pre` interpolator,
`raDec2Hpid` is `_raDec2Hpid` at the sky nside,
`returnMags` is `sky.returnMags` at (mjd, hpid, filter),
`airmass_map` is `sky.returnAirmass` at (mjd, hpid),
`seeing_eff`/`seeing_geom` are `SeeingSim.get_seeing_singlefilter`
at (elapsed seconds, filter, hpid) with the airmass dependency folded in,
`sunMoon_sunAlt`/`sunMoon_moonAlt` are `sky.returnSunMoon` fields, and
`m5_flat_sed` is the photometric depth function. -/
structure Config where
  mjd_start : ℚ
  readtime : ℚ
  f_change_time : ℚ
  shutter_time : ℚ
  sun_limit : ℚ
  cloud_limit : ℚ
  cloud_step : ℚ
  setting_sun_mjds : List ℚ
  down_nights : List ℕ
  sky_info : List (ℚ × ℚ)
  cloud_model : ℚ → ℚ
  sun_alt : ℚ → ℚ
  radec2altaz : ℚ → ℚ → ℚ → ℚ × ℚ
  slew_interp : ℚ → ℚ → ℚ → ℚ → ℚ
  raDec2Hpid : ℚ → ℚ → ℕ
  returnMags : ℚ → ℕ → String → ℚ
  airmass_map : ℚ → ℕ → ℚ
  seeing_eff : ℚ → String → ℕ → ℚ
  seeing_geom : ℚ → String → ℕ → ℚ
  sunMoon_sunAlt : ℚ → ℚ
  sunMoon_moonAlt : ℚ → ℚ
  m5_flat_sed : String → ℚ → ℚ → ℚ → ℚ → ℚ

/-- The mutable state of the `Speed_observatory` object: the clock
`self.mjd`, the night index `self.night`, the pointing `self.ra` /
`self.dec` (`None` when parked), the mounted filter `self.filtername`
(`None` when parked) and the cached status snapshot `self.status`
(`None` until `return_status` runs, cleared on rejection). -/
structure Obs where
  mjd : ℚ
  night : ℕ
  ra : Option ℚ
  dec : Option ℚ
  filtername : Option String
  status : Option Status

/-- An observation request, the record array handed to
`attempt_observe`: target RA/Dec (radians), requested filter name,
exposure time (seconds) and exposure count.  Caller passthrough fields
that the core never reads are omitted. -/
structure Request where
  RA : ℚ
  dec : ℚ
  filter : String
  exptime : ℚ
  nexp : ℚ

/-- The observation record returned on success: the request fields plus
everything `attempt_observe` fills in on the commit path (source lines
335-365). -/
structure Record where
  RA : ℚ
  dec : ℚ
  filter : String
  exptime : ℚ
  nexp : ℚ
  mjd : ℚ
  night : ℕ
  slewtime : ℚ
  skybrightness : ℚ
  FWHMeff : ℚ
  FWHM_geometric : ℚ
  airmass : ℚ
  fivesigmadepth : ℚ
  alt : ℚ
  az : ℚ
  clouds : ℚ
  sunAlt : ℚ
  moonAlt : ℚ

/-- Binary search loop of `np.searchsorted(a, v)` (side `left`): the
classic `while lo < hi` loop narrowing on the midpoint.  The fuel
argument bounds the number of iterations; since `hi - lo` strictly
decreases on every iteration, fuel `hi - lo` always suffices, so
`ssAux l v (hi - lo) lo hi` computes exactly what the numpy loop does. -/
def ssAux (l : List ℚ) (v : ℚ) : ℕ → ℕ → ℕ → ℕ
  | 0, lo, _ => lo
  | fuel + 1, lo, hi =>
    if lo < hi then
      if l.getD ((lo + hi) / 2) 0 < v then ssAux l v fuel ((lo + hi) / 2 + 1) hi
      else ssAux l v fuel lo ((lo + hi) / 2)
    else lo

/-- `mjd2night` (source lines 427-431): convert an mjd to a night
integer via `np.searchsorted(self.setting_sun_mjds, mjd)`. -/
def mjd2night (bs : List ℚ) (mjd : ℚ) : ℕ := ssAux bs mjd bs.length 0 bs.length

/-- `set_mjd` (source lines 433-438): update the clock and recompute the
night index. -/
def set_mjd (cfg : Config) (s : Obs) (mjd : ℚ) : Obs :=
  { s with mjd := mjd, night := mjd2night cfg.setting_sun_mjds mjd }

/-- `slew_time` (source lines 196-210): compute the current alt/az from
the current pointing, return `mintime` when it exactly equals the target
alt/az (the interpolator is inaccurate at zero displacement), otherwise
query the slew-time interpolator.  The source's `np.max` calls act on
one-element arrays and are the identity. -/
def slew_time (cfg : Config) (cra cdec mjd alt az mintime : ℚ) : ℚ :=
  let ca := cfg.radec2altaz cra cdec mjd
  if ca.1 = alt ∧ ca.2 = az then mintime
  else cfg.slew_interp ca.1 ca.2 alt az

/-- Filter-change time `ft` and slew time `st` computed at the top of
`attempt_observe` (source lines 309-318): parked (ra is None) charges
nothing; a filter change charges `f_change_time` with zero slew;
otherwise the slew time (the source calls `slew_time` with its default
`mintime=2.`).  The source tests `self.ra is not None` alone; `ra` and
`dec` are always set and cleared together, so we match on both. -/
def visit_costs (cfg : Config) (s : Obs) (o : Request) : ℚ × ℚ :=
  let aa := cfg.radec2altaz o.RA o.dec s.mjd
  match s.ra, s.dec with
  | some cra, some cdec =>
    if s.filtername ≠ some o.filter then (cfg.f_change_time, 0)
    else (0, slew_time cfg cra cdec s.mjd aa.1 aa.2 2)
  | _, _ => (0, 0)

/-- Total visit duration in days (source lines 323-325):
`(ft + st + exptime + (nexp-1)*readtime + shutter_time*nexp) * sec2days`. -/
def total_time (cfg : Config) (s : Obs) (o : Request) : ℚ :=
  let fs := visit_costs cfg s o
  (fs.1 + fs.2 + o.exptime + (o.nexp - 1) * cfg.readtime +
    cfg.shutter_time * o.nexp) * sec2days

/-- The filter predicate of the darkness/downtime jump search in
`check_mjd` (source lines 289-290): a timeline entry strictly later than
`mjd`, with precomputed sun altitude at or below the sun limit, whose
night is not a down night. -/
def good_instant (cfg : Config) (mjd : ℚ) (p : ℚ × ℚ) : Bool :=
  decide (mjd < p.1) && decide (p.2 ≤ cfg.sun_limit) &&
    !(decide (mjd2night cfg.setting_sun_mjds p.1 ∈ cfg.down_nights))

/-- `check_mjd` (source lines 268-298).  Note two source facts embedded
faithfully: the cloud fraction is queried at the elapsed time of the
*current clock* `self.mjd`, not at the argument `mjd`; and the lazy
`'night' not in self.sky.info` initialization amounts to filtering the
timeline by the `good_instant` predicate. -/
def check_mjd (cfg : Config) (s : Obs) (mjd : ℚ) : Bool × ℚ :=
  let delta_t := (s.mjd - cfg.mjd_start) * 24 * 3600
  let cloud := cfg.cloud_model delta_t
  if cloud ≥ cfg.cloud_limit then (false, mjd + cfg.cloud_step)
  else if cfg.sun_alt mjd > cfg.sun_limit ∨
      mjd2night cfg.setting_sun_mjds mjd ∈ cfg.down_nights then
    match cfg.sky_info.filter (good_instant cfg mjd) with
    | [] => (false, mjd + 1/4)
    | p :: _ => (false, p.1)
  else (true, mjd)

/-- The status snapshot `return_status` stores in `self.status`
(source lines 226-266), restricted to the fields the modelled paths
read; everything is evaluated at the current clock.  The per-filter
seeing entries exist exactly for the six names of the source's loop
(line 242): any other filter key is absent. -/
def mk_status (cfg : Config) (s : Obs) : Status :=
  let delta_t := (s.mjd - cfg.mjd_start) * 24 * 3600
  { mjd := s.mjd
    night := s.night
    clouds := cfg.cloud_model delta_t
    sunAlt := cfg.sunMoon_sunAlt s.mjd
    moonAlt := cfg.sunMoon_moonAlt s.mjd
    airmass := cfg.airmass_map s.mjd
    fwhm_eff := fun f hpid =>
      if f ∈ supported_filters then some (cfg.seeing_eff delta_t f hpid)
      else none
    fwhm_geom := fun f hpid =>
      if f ∈ supported_filters then some (cfg.seeing_geom delta_t f hpid)
      else none }

/-- `return_status` as a state transformer: it recomputes the snapshot
at the current clock and caches it in `self.status`; no other state
field changes. -/
def return_status (cfg : Config) (s : Obs) : Obs :=
  { s with status := some (mk_status cfg s) }

/-- The rejection branch of `attempt_observe` (source lines 370-377):
set the clock to the gate's jump target, recompute the night, park the
pointing and filter, clear the status snapshot. -/
def parkedReset (cfg : Config) (s : Obs) (jump_mjd : ℚ) : Obs :=
  { s with
    mjd := jump_mjd
    night := mjd2night cfg.setting_sun_mjds jump_mjd
    ra := none, dec := none, status := none, filtername := none }

/-- State after source lines 335-338 on the commit path: clock set to
the exposure start `self.mjd + (ft + st) * sec2days`, pointing set to
the request's target. -/
def commit_pre (cfg : Config) (s : Obs) (o : Request) : Obs :=
  let fs := visit_costs cfg s o
  { set_mjd cfg s (s.mjd + (fs.1 + fs.2) * sec2days) with
    ra := some o.RA, dec := some o.dec }

/-- State after source lines 340-342: the snapshot is recomputed only
when the telescope was parked before the call (`update_status` is
decided from `self.ra` before the commit mutations). -/
def commit_mid (cfg : Config) (s : Obs) (o : Request) : Obs :=
  if s.ra.isNone then return_status cfg (commit_pre cfg s o)
  else commit_pre cfg s o

/-- The populated observation record of the commit path (source lines
335-365).  `observation['filter'][0]` on a one-element record array is
the full stored filter string, and `observation['mjd']` was set to the
exposure-start instant before the status lookups.  `fe`/`fg` are the
values found by the per-filter status-dict lookups. -/
def commit_rec (cfg : Config) (s : Obs) (o : Request) (stat : Status)
    (fe fg : ℚ) : Record :=
  let aa := cfg.radec2altaz o.RA o.dec s.mjd
  let fs := visit_costs cfg s o
  let obs_mjd := s.mjd + (fs.1 + fs.2) * sec2days
  let hpid := cfg.raDec2Hpid o.RA o.dec
  let skyb := cfg.returnMags obs_mjd hpid o.filter
  { RA := o.RA, dec := o.dec, filter := o.filter, exptime := o.exptime
    nexp := o.nexp
    mjd := obs_mjd
    night := mjd2night cfg.setting_sun_mjds obs_mjd
    slewtime := fs.1 + fs.2
    skybrightness := skyb
    FWHMeff := fe
    FWHM_geometric := fg
    airmass := stat.airmass hpid
    fivesigmadepth := cfg.m5_flat_sed o.filter skyb fe
      o.exptime (stat.airmass hpid)
    alt := aa.1, az := aa.2
    clouds := stat.clouds, sunAlt := stat.sunAlt, moonAlt := stat.moonAlt }

/-- Failure modes of the commit path, both Python exceptions raised
after the clock/pointing mutations of source lines 335-349:
`absentStatus` when `self.status` is `None` at the lookups of lines
353-365, and `keyError` when the requested filter is outside the
status dictionary's fixed key set (`self.status['FWHMeff_%s' % f]`,
line 353; the standard sky provider's `returnMags(...)[f]` at lines
351-352 would raise for the same filters). -/
inductive Err where
  | absentStatus
  | keyError

/-- `attempt_observe` (source lines 300-377): compute the costs and the
total visit duration, gate `self.mjd + total_time` through `check_mjd`;
on success run the commit pipeline (clock to exposure start, pointing
set, snapshot recomputed iff previously parked, filter mounted, record
populated from the snapshot, clock advanced to the original end
instant); on failure park and jump the clock.  There is no validation
of the request anywhere: an unsupported filter is only stopped by the
`KeyError` of the per-filter status lookups, mid-commit. -/
def attempt_observe (cfg : Config) (s : Obs) (o : Request) :
    Except Err (Obs × Option Record) :=
  let res := check_mjd cfg s (s.mjd + total_time cfg s o)
  if res.1 then
    let s4 := { commit_mid cfg s o with filtername := some o.filter }
    match s4.status with
    | none => .error .absentStatus
    | some stat =>
      let hpid := cfg.raDec2Hpid o.RA o.dec
      match stat.fwhm_eff o.filter hpid, stat.fwhm_geom o.filter hpid with
      | some fe, some fg =>
        let fs := visit_costs cfg s o
        .ok (set_mjd cfg s4
            (s4.mjd + total_time cfg s o - (fs.1 + fs.2) * sec2days),
          some (commit_rec cfg s o stat fe fg))
      | _, _ => .error .keyError
  else
    .ok (parkedReset cfg s res.2, none)

/-- The state right after `__init__`: clock at `mjd_start`, night
computed from it (source line 154), parked, no filter, no snapshot. -/
def init_state (cfg : Config) : Obs :=
  { mjd := cfg.mjd_start
    night := mjd2night cfg.setting_sun_mjds cfg.mjd_start
    ra := none, dec := none, filtername := none, status := none }

/-- States reachable from construction through the public mutating
operations: `set_mjd`, `return_status`, and non-raising
`attempt_observe` calls. -/
inductive Reachable (cfg : Config) : Obs → Prop where
  | init : Reachable cfg (init_state cfg)
  | step_set_mjd (s : Obs) (m : ℚ) : Reachable cfg s →
      Reachable cfg (set_mjd cfg s m)
  | step_status (s : Obs) : Reachable cfg s →
      Reachable cfg (return_status cfg s)
  | step_observe (s s2 : Obs) (o : Request) (r : Option Record) :
      Reachable cfg s → attempt_observe cfg s o = .ok (s2, r) →
      Reachable cfg s2

/-- A small concrete configuration used by the concrete witnesses:
empty tables, clear sky, sun below the limit, constant providers. -/
def cfg0 : Config :=
  { mjd_start := 0, readtime := 2, f_change_time := 140, shutter_time := 1
    sun_limit := 0, cloud_limit := 1, cloud_step := 1/96
    setting_sun_mjds := [], down_nights := [], sky_info := []
    cloud_model := fun _ => 0, sun_alt := fun _ => -1
    radec2altaz := fun _ _ _ => (1, 1), slew_interp := fun _ _ _ _ => 5
    raDec2Hpid := fun _ _ => 0, returnMags := fun _ _ _ => 20
    airmass_map := fun _ _ => 1, seeing_eff := fun _ _ _ => 1
    seeing_geom := fun _ _ _ => 1, sunMoon_sunAlt := fun _ => -1
    sunMoon_moonAlt := fun _ => -1, m5_flat_sed := fun _ _ _ _ _ => 24 }

/-- Variant of `cfg0` that is fully clouded over. -/
def cfgCloudy : Config :=
  { cfg0 with cloud_model := fun _ => 1, cloud_limit := 1/2 }

/-- Variant of `cfg0` with the sun up and a two-entry dark timeline. -/
def cfgDay : Config :=
  { cfg0 with sun_alt := fun _ => 1, sky_info := [(1, -1), (2, -1)] }

/-- A concrete valid request. -/
def req0 : Request :=
  { RA := 0, dec := 0, filter := "r", exptime := 30, nexp := 2 }

/-- A concrete invalid request: exposure count below one and a missing
(empty) filter name. -/
def reqInvalid : Request :=
  { RA := 0, dec := 0, filter := "", exptime := 30, nexp := 0 }

/-- A concrete invalid request whose filter is supported: exposure
count zero with filter `r`. -/
def reqNexp0 : Request :=
  { RA := 0, dec := 0, filter := "r", exptime := 30, nexp := 0 }

/-- A concrete tracking state (pointing set, filter mounted) used by
witnesses that exercise the non-parked branches. -/
def obsTrack : Obs :=
  { mjd := 0, night := 0, ra := some 1, dec := some 1
    filtername := some "g", status := none }

/-- Monotonicity of indexed access in a `≤`-sorted list. -/
theorem getD_mono_of_sorted (l : List ℚ) (hl : l.Sorted (· ≤ ·)) {i j : ℕ}
    (hij : i ≤ j) (hj : j < l.length) : l.getD i 0 ≤ l.getD j 0 := by
  rcases eq_or_lt_of_le hij with rfl | hlt
  · exact le_refl _
  · have hi : i < l.length := lt_trans hlt hj
    rw [List.getD_eq_getElem l 0 hi, List.getD_eq_getElem l 0 hj]
    exact List.pairwise_iff_getElem.mp hl i j hi hj hlt

/-- Correctness of the binary-search loop of `np.searchsorted`: on a
sorted list, starting from a bracket whose outside is already decided,
the loop returns the index splitting the elements strictly below `v`
from the rest. -/
theorem ssAux_spec (l : List ℚ) (v : ℚ) (hl : l.Sorted (· ≤ ·)) :
    ∀ fuel lo hi, hi - lo ≤ fuel → lo ≤ hi → hi ≤ l.length →
    (∀ i, i < lo → i < l.length → l.getD i 0 < v) →
    (∀ i, hi ≤ i → i < l.length → ¬ l.getD i 0 < v) →
    lo ≤ ssAux l v fuel lo hi ∧ ssAux l v fuel lo hi ≤ hi ∧
      ∀ i, i < l.length → (l.getD i 0 < v ↔ i < ssAux l v fuel lo hi) := by
  intro fuel
  induction fuel with
  | zero =>
    intro lo hi hfuel hlohi hhil hlow hhigh
    have heq : lo = hi := by omega
    subst heq
    simp only [ssAux]
    refine ⟨le_refl _, le_refl _, ?_⟩
    intro i hi2
    constructor
    · intro hv
      by_contra hcon
      exact hhigh i (by omega) hi2 hv
    · intro hi3
      exact hlow i hi3 hi2
  | succ fuel ih =>
    intro lo hi hfuel hlohi hhil hlow hhigh
    by_cases hlt : lo < hi
    · have hmid1 : lo ≤ (lo + hi) / 2 := by omega
      have hmid2 : (lo + hi) / 2 < hi := by omega
      by_cases hv : l.getD ((lo + hi) / 2) 0 < v
      · have hstep : ssAux l v (fuel + 1) lo hi =
            ssAux l v fuel ((lo + hi) / 2 + 1) hi := by
          simp only [ssAux, if_pos hlt, if_pos hv]
        rw [hstep]
        have hlow2 : ∀ i, i < (lo + hi) / 2 + 1 → i < l.length →
            l.getD i 0 < v := by
          intro i hi1 hi2
          rcases lt_or_ge i lo with h | h
          · exact hlow i h hi2
          · have hle : l.getD i 0 ≤ l.getD ((lo + hi) / 2) 0 :=
              getD_mono_of_sorted l hl (by omega) (by omega)
            exact lt_of_le_of_lt hle hv
        obtain ⟨h1, h2, h3⟩ := ih ((lo + hi) / 2 + 1) hi (by omega) (by omega)
          hhil hlow2 hhigh
        exact ⟨by omega, h2, h3⟩
      · have hstep : ssAux l v (fuel + 1) lo hi =
            ssAux l v fuel lo ((lo + hi) / 2) := by
          simp only [ssAux, if_pos hlt, if_neg hv]
        rw [hstep]
        have hhigh2 : ∀ i, (lo + hi) / 2 ≤ i → i < l.length →
            ¬ l.getD i 0 < v := by
          intro i h1 h2 hcon
          have hle : l.getD ((lo + hi) / 2) 0 ≤ l.getD i 0 :=
            getD_mono_of_sorted l hl h1 h2
          exact hv (lt_of_le_of_lt hle hcon)
        obtain ⟨h1, h2, h3⟩ := ih lo ((lo + hi) / 2) (by omega) (by omega)
          (by omega) hlow hhigh2
        exact ⟨h1, by omega, h3⟩
    · have heq : lo = hi := by omega
      subst heq
      simp only [ssAux, if_neg hlt]
      refine ⟨le_refl _, le_refl _, ?_⟩
      intro i hi2
      constructor
      · intro hv
        by_contra hcon
        exact hhigh i (by omega) hi2 hv
      · intro hi3
        exact hlow i hi3 hi2

/-- A list whose elements below `v` are exactly those at indices below
`k` has exactly `k` elements below `v`. -/
theorem countP_eq_of_index_iff (v : ℚ) :
    ∀ (l : List ℚ) (k : ℕ), k ≤ l.length →
    (∀ i, i < l.length → (l.getD i 0 < v ↔ i < k)) →
    l.countP (fun b => decide (b < v)) = k := by
  intro l
  induction l with
  | nil =>
    intro k hk _
    simp only [List.countP_nil]
    simp at hk
    omega
  | cons x xs ih =>
    intro k hk hiff
    cases k with
    | zero =>
      apply List.countP_eq_zero.mpr
      intro b hb
      obtain ⟨n, hn, rfl⟩ := List.mem_iff_getElem.mp hb
      have hmp := (hiff n hn).mp
      rw [List.getD_eq_getElem _ 0 hn] at hmp
      simp only [decide_eq_true_eq]
      intro hbv
      exact absurd (hmp hbv) (by omega)
    | succ k =>
      have hx : x < v := by
        have h0 := (hiff 0 (by simp)).mpr (Nat.succ_pos k)
        simpa using h0
      rw [List.countP_cons_of_pos _ _ (by simpa using hx)]
      have hxs : xs.countP (fun b => decide (b < v)) = k := by
        apply ih k (by simpa using hk)
        intro i hi
        have h1 := hiff (i + 1) (by simpa using Nat.succ_lt_succ hi)
        simpa [List.getD_cons_succ, Nat.succ_lt_succ_iff] using h1
      omega

/-- On a sorted boundary table, `mjd2night` returns the number of
boundaries strictly below the query instant. -/
theorem mjd2night_eq_countP (bs : List ℚ) (hs : bs.Sorted (· ≤ ·)) (m : ℚ) :
    mjd2night bs m = bs.countP (fun b => decide (b < m)) := by
  obtain ⟨h1, h2, h3⟩ := ssAux_spec bs m hs bs.length 0 bs.length (by omega)
    (by omega) (le_refl _)
    (by intro i hi _; exact absurd hi (Nat.not_lt_zero i))
    (by intro i hi1 hi2; omega)
  unfold mjd2night
  exact (countP_eq_of_index_iff m bs _ h2 h3).symm

/-- The snapshot consulted by the commit path: freshly recomputed when
the telescope was parked before the call, reused otherwise. -/
theorem commit_mid_status (cfg : Config) (s : Obs) (o : Request) :
    (commit_mid cfg s o).status =
      if s.ra.isNone then some (mk_status cfg (commit_pre cfg s o))
      else s.status := by
  unfold commit_mid return_status commit_pre set_mjd
  split <;> rfl

/-- Clock of the intermediate commit state: the exposure-start instant. -/
theorem commit_mid_mjd (cfg : Config) (s : Obs) (o : Request) :
    (commit_mid cfg s o).mjd =
      s.mjd + ((visit_costs cfg s o).1 + (visit_costs cfg s o).2) * sec2days := by
  unfold commit_mid return_status commit_pre set_mjd
  split <;> rfl

/-- Pointing of the intermediate commit state: the request's target. -/
theorem commit_mid_ra (cfg : Config) (s : Obs) (o : Request) :
    (commit_mid cfg s o).ra = some o.RA := by
  unfold commit_mid return_status commit_pre set_mjd
  split <;> rfl

/-- Declination of the intermediate commit state. -/
theorem commit_mid_dec (cfg : Config) (s : Obs) (o : Request) :
    (commit_mid cfg s o).dec = some o.dec := by
  unfold commit_mid return_status commit_pre set_mjd
  split <;> rfl

/-- Rejection branch of `attempt_observe`, as an equation. -/
theorem attempt_observe_check_false (cfg : Config) (s : Obs) (o : Request)
    (h : (check_mjd cfg s (s.mjd + total_time cfg s o)).1 = false) :
    attempt_observe cfg s o =
      .ok (parkedReset cfg s (check_mjd cfg s (s.mjd + total_time cfg s o)).2,
        none) := by
  unfold attempt_observe
  simp [h]

/-- Crash branch of `attempt_observe`: the gate passes but the snapshot
consulted by the commit path is absent. -/
theorem attempt_observe_check_true_none (cfg : Config) (s : Obs) (o : Request)
    (h : (check_mjd cfg s (s.mjd + total_time cfg s o)).1 = true)
    (hst : (commit_mid cfg s o).status = none) :
    attempt_observe cfg s o = .error .absentStatus := by
  unfold attempt_observe
  simp only [h, if_true]
  have hs4 : ({ commit_mid cfg s o with filtername := some o.filter } : Obs).status
      = (commit_mid cfg s o).status := rfl
  rw [hs4, hst]

/-- Commit branch of `attempt_observe`, as an equation: the gate
passes, a snapshot is present, and both per-filter status-dict lookups
find their key. -/
theorem attempt_observe_check_true_some (cfg : Config) (s : Obs) (o : Request)
    (stat : Status) (fe fg : ℚ)
    (h : (check_mjd cfg s (s.mjd + total_time cfg s o)).1 = true)
    (hst : (commit_mid cfg s o).status = some stat)
    (hfe : stat.fwhm_eff o.filter (cfg.raDec2Hpid o.RA o.dec) = some fe)
    (hfg : stat.fwhm_geom o.filter (cfg.raDec2Hpid o.RA o.dec) = some fg) :
    attempt_observe cfg s o =
      .ok (set_mjd cfg { commit_mid cfg s o with filtername := some o.filter }
          ((commit_mid cfg s o).mjd + total_time cfg s o -
            ((visit_costs cfg s o).1 + (visit_costs cfg s o).2) * sec2days),
        some (commit_rec cfg s o stat fe fg)) := by
  unfold attempt_observe
  simp only [h, if_true]
  have hs4 : ({ commit_mid cfg s o with filtername := some o.filter } : Obs).status
      = (commit_mid cfg s o).status := rfl
  rw [hs4, hst]
  simp only [hfe, hfg]

/-- `KeyError` branch of `attempt_observe`: the gate passes and a
snapshot is present, but a per-filter entry is absent (the filter is
outside the supported set). -/
theorem attempt_observe_check_true_keyError (cfg : Config) (s : Obs)
    (o : Request) (stat : Status)
    (h : (check_mjd cfg s (s.mjd + total_time cfg s o)).1 = true)
    (hst : (commit_mid cfg s o).status = some stat)
    (hk : stat.fwhm_eff o.filter (cfg.raDec2Hpid o.RA o.dec) = none ∨
      stat.fwhm_geom o.filter (cfg.raDec2Hpid o.RA o.dec) = none) :
    attempt_observe cfg s o = .error .keyError := by
  unfold attempt_observe
  simp only [h, if_true]
  have hs4 : ({ commit_mid cfg s o with filtername := some o.filter } : Obs).status
      = (commit_mid cfg s o).status := rfl
  rw [hs4, hst]
  rcases hk with hk | hk
  · simp only [hk]
  · rcases hfe2 : stat.fwhm_eff o.filter (cfg.raDec2Hpid o.RA o.dec) with _ | fe
    · simp only [hfe2]
    · simp only [hfe2, hk]

/-- Inversion of a successful (record-returning) `attempt_observe`. -/
theorem attempt_ok_some_inv (cfg : Config) (s : Obs) (o : Request) (s2 : Obs)
    (rec : Record) (h : attempt_observe cfg s o = .ok (s2, some rec)) :
    ∃ stat fe fg, (commit_mid cfg s o).status = some stat ∧
      stat.fwhm_eff o.filter (cfg.raDec2Hpid o.RA o.dec) = some fe ∧
      stat.fwhm_geom o.filter (cfg.raDec2Hpid o.RA o.dec) = some fg ∧
      (check_mjd cfg s (s.mjd + total_time cfg s o)).1 = true ∧
      s2 = set_mjd cfg { commit_mid cfg s o with filtername := some o.filter }
          ((commit_mid cfg s o).mjd + total_time cfg s o -
            ((visit_costs cfg s o).1 + (visit_costs cfg s o).2) * sec2days) ∧
      rec = commit_rec cfg s o stat fe fg := by
  by_cases hc : (check_mjd cfg s (s.mjd + total_time cfg s o)).1
  · rcases hstat : (commit_mid cfg s o).status with _ | stat
    · rw [attempt_observe_check_true_none cfg s o hc hstat] at h
      exact absurd h (by simp)
    · rcases hfe : stat.fwhm_eff o.filter (cfg.raDec2Hpid o.RA o.dec)
        with _ | fe
      · rw [attempt_observe_check_true_keyError cfg s o stat hc hstat
          (Or.inl hfe)] at h
        exact absurd h (by simp)
      · rcases hfg : stat.fwhm_geom o.filter (cfg.raDec2Hpid o.RA o.dec)
          with _ | fg
        · rw [attempt_observe_check_true_keyError cfg s o stat hc hstat
            (Or.inr hfg)] at h
          exact absurd h (by simp)
        · rw [attempt_observe_check_true_some cfg s o stat fe fg hc hstat
            hfe hfg] at h
          simp only [Except.ok.injEq, Prod.mk.injEq, Option.some.injEq] at h
          exact ⟨stat, fe, fg, rfl, hfe, hfg, hc, h.1.symm, h.2.symm⟩
  · rw [attempt_observe_check_false cfg s o (by simpa using hc)] at h
    simp at h

/-- Inversion of a rejected (`None`-returning) `attempt_observe`. -/
theorem attempt_ok_none_inv (cfg : Config) (s : Obs) (o : Request) (s2 : Obs)
    (h : attempt_observe cfg s o = .ok (s2, none)) :
    (check_mjd cfg s (s.mjd + total_time cfg s o)).1 = false ∧
    s2 = parkedReset cfg s (check_mjd cfg s (s.mjd + total_time cfg s o)).2 := by
  by_cases hc : (check_mjd cfg s (s.mjd + total_time cfg s o)).1
  · rcases hstat : (commit_mid cfg s o).status with _ | stat
    · rw [attempt_observe_check_true_none cfg s o hc hstat] at h
      exact absurd h (by simp)
    · rcases hfe : stat.fwhm_eff o.filter (cfg.raDec2Hpid o.RA o.dec)
        with _ | fe
      · rw [attempt_observe_check_true_keyError cfg s o stat hc hstat
          (Or.inl hfe)] at h
        exact absurd h (by simp)
      · rcases hfg : stat.fwhm_geom o.filter (cfg.raDec2Hpid o.RA o.dec)
          with _ | fg
        · rw [attempt_observe_check_true_keyError cfg s o stat hc hstat
            (Or.inr hfg)] at h
          exact absurd h (by simp)
        · rw [attempt_observe_check_true_some cfg s o stat fe fg hc hstat
            hfe hfg] at h
          simp at h
  · rw [attempt_observe_check_false cfg s o (by simpa using hc)] at h
    simp only [Except.ok.injEq, Prod.mk.injEq] at h
    exact ⟨by simpa using hc, h.1.symm⟩

/-- Inversion of an `attempt_observe` raising the absent-snapshot
error: the gate passed and the snapshot consulted by the commit path
was `None` (the `keyError` branch raises a different error). -/
theorem attempt_error_absent_inv (cfg : Config) (s : Obs) (o : Request)
    (h : attempt_observe cfg s o = .error .absentStatus) :
    (check_mjd cfg s (s.mjd + total_time cfg s o)).1 = true ∧
    (commit_mid cfg s o).status = none := by
  by_cases hc : (check_mjd cfg s (s.mjd + total_time cfg s o)).1
  · rcases hstat : (commit_mid cfg s o).status with _ | stat
    · exact ⟨hc, rfl⟩
    · rcases hfe : stat.fwhm_eff o.filter (cfg.raDec2Hpid o.RA o.dec)
        with _ | fe
      · rw [attempt_observe_check_true_keyError cfg s o stat hc hstat
          (Or.inl hfe)] at h
        simp at h
      · rcases hfg : stat.fwhm_geom o.filter (cfg.raDec2Hpid o.RA o.dec)
          with _ | fg
        · rw [attempt_observe_check_true_keyError cfg s o stat hc hstat
            (Or.inr hfg)] at h
          simp at h
        · rw [attempt_observe_check_true_some cfg s o stat fe fg hc hstat
            hfe hfg] at h
          exact absurd h (by simp)
  · rw [attempt_observe_check_false cfg s o (by simpa using hc)] at h
    exact absurd h (by simp)

/-- Inductive invariant of the simulation: whenever the pointing is set,
a cached status snapshot is present.  The only operation that sets the
pointing is the commit branch of `attempt_observe`, which recomputes the
snapshot when coming from the parked state and otherwise reuses the one
that was already present. -/
theorem reachable_status_of_ra (cfg : Config) (s : Obs) (h : Reachable cfg s) :
    s.ra.isSome → s.status.isSome := by
  induction h with
  | init => simp [init_state]
  | step_set_mjd s m hr ih => simpa [set_mjd] using ih
  | step_status s hr ih => simp [return_status]
  | step_observe s s2 o r hr heq ih =>
    cases r with
    | none =>
      obtain ⟨hc, hs2⟩ := attempt_ok_none_inv cfg s o s2 heq
      subst hs2
      simp [parkedReset]
    | some rec =>
      obtain ⟨stat, fe, fg, hstat, hfe, hfg, hc, hs2, hrec⟩ := attempt_ok_some_inv cfg s o s2 rec heq
      subst hs2
      intro _
      simpa [set_mjd] using congrArg Option.isSome hstat

/-- Claim C9: after construction and after every public operation that
changes the clock (`set_mjd`, both branches of `attempt_observe`, and
`return_status` which leaves it unchanged), the stored night index
equals `mjd2night` of the stored clock. -/
theorem c9_theorem (cfg : Config) (s : Obs) (h : Reachable cfg s) :
    s.night = mjd2night cfg.setting_sun_mjds s.mjd := by
  induction h with
  | init => rfl
  | step_set_mjd s m hr ih => rfl
  | step_status s hr ih => simpa [return_status] using ih
  | step_observe s s2 o r hr heq ih =>
    cases r with
    | none =>
      obtain ⟨hc, hs2⟩ := attempt_ok_none_inv cfg s o s2 heq
      subst hs2
      rfl
    | some rec =>
      obtain ⟨stat, fe, fg, hstat, hfe, hfg, hc, hs2, hrec⟩ := attempt_ok_some_inv cfg s o s2 rec heq
      subst hs2
      rfl

/-- Claim C9 witness: the invariant instantiated at the reachable
initial state of a concrete configuration. -/
theorem c9_witness :
    (init_state cfg0).night =
      mjd2night cfg0.setting_sun_mjds (init_state cfg0).mjd :=
  c9_theorem cfg0 (init_state cfg0) Reachable.init

/-- Claim C10: in every reachable state, `attempt_observe` never
dereferences an absent status snapshot on its commit path: a success
from the parked state recomputes the snapshot before the lookups run,
and a success from a tracking state reuses a snapshot whose presence is
the `reachable_status_of_ra` invariant. -/
theorem c10_theorem (cfg : Config) (s : Obs) (h : Reachable cfg s)
    (o : Request) : attempt_observe cfg s o ≠ .error .absentStatus := by
  intro hbad
  obtain ⟨hc, hnone⟩ := attempt_error_absent_inv cfg s o hbad
  rw [commit_mid_status] at hnone
  by_cases hra : s.ra.isNone
  · rw [if_pos hra] at hnone
    exact Option.noConfusion hnone
  · rw [if_neg hra] at hnone
    have hsome : s.status.isSome := by
      apply reachable_status_of_ra cfg s h
      cases hra2 : s.ra with
      | none => rw [hra2] at hra; simp at hra
      | some x => rfl
    rw [hnone] at hsome
    simp at hsome

/-- Claim C10 witness: from the reachable initial state of a concrete
configuration, a concrete request cannot trigger the absent-snapshot
dereference. -/
theorem c10_witness :
    attempt_observe cfg0 (init_state cfg0) req0 ≠ .error .absentStatus :=
  c10_theorem cfg0 (init_state cfg0) Reachable.init req0

/-- Costs charged by `attempt_observe` are nonnegative when the filter
change duration and the slew interpolator are. -/
theorem visit_costs_nonneg (cfg : Config) (s : Obs) (o : Request)
    (hfc : 0 ≤ cfg.f_change_time)
    (hslew : ∀ a b c d, 0 ≤ cfg.slew_interp a b c d) :
    0 ≤ (visit_costs cfg s o).1 ∧ 0 ≤ (visit_costs cfg s o).2 := by
  rcases hra : s.ra with _ | cra <;> rcases hdec : s.dec with _ | cdec <;>
    simp only [visit_costs, hra, hdec]
  · exact ⟨le_refl 0, le_refl 0⟩
  · exact ⟨le_refl 0, le_refl 0⟩
  · exact ⟨le_refl 0, le_refl 0⟩
  · split
    · exact ⟨hfc, le_refl 0⟩
    · refine ⟨le_refl 0, ?_⟩
      unfold slew_time
      dsimp only
      split
      · norm_num
      · exact hslew _ _ _ _

/-- The total visit duration is strictly positive for a valid request
with nonnegative model parameters. -/
theorem total_time_pos (cfg : Config) (s : Obs) (o : Request)
    (hexp : 0 < o.exptime) (hnexp : 1 ≤ o.nexp)
    (hread : 0 ≤ cfg.readtime) (hshut : 0 ≤ cfg.shutter_time)
    (hfc : 0 ≤ cfg.f_change_time)
    (hslew : ∀ a b c d, 0 ≤ cfg.slew_interp a b c d) :
    0 < total_time cfg s o := by
  obtain ⟨h1, h2⟩ := visit_costs_nonneg cfg s o hfc hslew
  unfold total_time
  have hrt : 0 ≤ (o.nexp - 1) * cfg.readtime :=
    mul_nonneg (by linarith) hread
  have hsh : 0 ≤ cfg.shutter_time * o.nexp :=
    mul_nonneg hshut (by linarith)
  apply mul_pos (by linarith)
  norm_num [sec2days]

/-- Claim C3: on a successful `attempt_observe` the returned record's
mjd is the pre-call clock plus the charged (filter change + slew) time
in days; the post-call clock is the pre-call clock plus the total visit
duration; with a valid request (positive exposure time, at least one
exposure) and nonnegative model durations, the clock strictly
increases. -/
theorem c3_theorem (cfg : Config) (s : Obs) (o : Request) (s2 : Obs)
    (rec : Record) (h : attempt_observe cfg s o = .ok (s2, some rec))
    (hexp : 0 < o.exptime) (hnexp : 1 ≤ o.nexp)
    (hread : 0 ≤ cfg.readtime) (hshut : 0 ≤ cfg.shutter_time)
    (hfc : 0 ≤ cfg.f_change_time)
    (hslew : ∀ a b c d, 0 ≤ cfg.slew_interp a b c d) :
    rec.mjd = s.mjd +
      ((visit_costs cfg s o).1 + (visit_costs cfg s o).2) * sec2days ∧
    s2.mjd = s.mjd + total_time cfg s o ∧
    s.mjd < s2.mjd := by
  obtain ⟨stat, fe, fg, hstat, hfe, hfg, hc, hs2, hrec⟩ := attempt_ok_some_inv cfg s o s2 rec h
  subst hs2
  subst hrec
  have hmjd : (set_mjd cfg
      { commit_mid cfg s o with filtername := some o.filter }
      ((commit_mid cfg s o).mjd + total_time cfg s o -
        ((visit_costs cfg s o).1 + (visit_costs cfg s o).2) * sec2days)).mjd
      = s.mjd + total_time cfg s o := by
    simp only [set_mjd]
    rw [commit_mid_mjd cfg s o]
    ring
  refine ⟨rfl, hmjd, ?_⟩
  rw [hmjd]
  have := total_time_pos cfg s o hexp hnexp hread hshut hfc hslew
  linarith

/-- Claim C4: a rejected attempt returns the distinguished null result,
parks pointing and filter, clears the snapshot, sets the clock to the
gate's proposed next candidate, and recomputes the night index from the
new clock. -/
theorem c4_theorem (cfg : Config) (s : Obs) (o : Request) (s2 : Obs)
    (h : attempt_observe cfg s o = .ok (s2, none)) :
    s2.ra = none ∧ s2.dec = none ∧ s2.filtername = none ∧ s2.status = none ∧
    s2.mjd = (check_mjd cfg s (s.mjd + total_time cfg s o)).2 ∧
    s2.night = mjd2night cfg.setting_sun_mjds s2.mjd := by
  obtain ⟨hc, hs2⟩ := attempt_ok_none_inv cfg s o s2 h
  subst hs2
  exact ⟨rfl, rfl, rfl, rfl, rfl, rfl⟩

/-- Claim C8: on a successful `attempt_observe` the committed state has
the request's pointing, and the mounted filter is the request's full
filter name (the source stores `observation['filter'][0]`, which on a
one-element record array is the full stored string). -/
theorem c8_theorem (cfg : Config) (s : Obs) (o : Request) (s2 : Obs)
    (rec : Record) (h : attempt_observe cfg s o = .ok (s2, some rec)) :
    s2.ra = some o.RA ∧ s2.dec = some o.dec ∧
    s2.filtername = some o.filter := by
  obtain ⟨stat, fe, fg, hstat, hfe, hfg, hc, hs2, hrec⟩ := attempt_ok_some_inv cfg s o s2 rec h
  subst hs2
  exact ⟨commit_mid_ra cfg s o, commit_mid_dec cfg s o, rfl⟩

/-- The concrete configuration `cfg0` accepts the concrete request
`req0` from the initial state: the sky is clear and the sun is below
the limit. -/
theorem cfg0_check_true :
    (check_mjd cfg0 (init_state cfg0)
      ((init_state cfg0).mjd + total_time cfg0 (init_state cfg0) req0)).1
      = true := by
  norm_num [check_mjd, cfg0, init_state, mjd2night, ssAux]

/-- From the parked initial state, the commit path of `cfg0`/`req0`
recomputes the snapshot. -/
theorem cfg0_commit_status :
    (commit_mid cfg0 (init_state cfg0) req0).status =
      some (mk_status cfg0 (commit_pre cfg0 (init_state cfg0) req0)) := by
  rw [commit_mid_status]
  norm_num [init_state]

/-- The commit-path snapshot of `cfg0`/`req0` has both per-filter
entries for the requested (supported) filter. -/
theorem cfg0_commit_fwhm :
    (mk_status cfg0 (commit_pre cfg0 (init_state cfg0) req0)).fwhm_eff
        req0.filter (cfg0.raDec2Hpid req0.RA req0.dec) = some 1 ∧
    (mk_status cfg0 (commit_pre cfg0 (init_state cfg0) req0)).fwhm_geom
        req0.filter (cfg0.raDec2Hpid req0.RA req0.dec) = some 1 := by
  constructor <;> decide

/-- Claim C3 witness: a concrete successful call whose clock strictly
increases. -/
theorem c3_witness :
    ∃ s2 rec, attempt_observe cfg0 (init_state cfg0) req0 =
      .ok (s2, some rec) ∧ (init_state cfg0).mjd < s2.mjd := by
  have h := attempt_observe_check_true_some cfg0 (init_state cfg0) req0 _ 1 1
    cfg0_check_true cfg0_commit_status cfg0_commit_fwhm.1 cfg0_commit_fwhm.2
  have h3 := c3_theorem cfg0 (init_state cfg0) req0 _ _ h
    (by norm_num [req0]) (by norm_num [req0]) (by norm_num [cfg0])
    (by norm_num [cfg0]) (by norm_num [cfg0])
    (by intro a b c d; norm_num [cfg0])
  exact ⟨_, _, h, h3.2.2⟩

/-- Claim C4 witness: a concrete rejected call (fully clouded sky)
leaves the state parked with a cleared snapshot. -/
theorem c4_witness :
    ∃ s2, attempt_observe cfgCloudy (init_state cfgCloudy) req0 =
      .ok (s2, none) ∧ s2.ra = none ∧ s2.filtername = none ∧
      s2.status = none := by
  have hfalse : (check_mjd cfgCloudy (init_state cfgCloudy)
      ((init_state cfgCloudy).mjd +
        total_time cfgCloudy (init_state cfgCloudy) req0)).1 = false := by
    norm_num [check_mjd, cfgCloudy, cfg0]
  have h := attempt_observe_check_false cfgCloudy (init_state cfgCloudy)
    req0 hfalse
  obtain ⟨h1, h2, h3, h4, h5, h6⟩ :=
    c4_theorem cfgCloudy (init_state cfgCloudy) req0 _ h
  exact ⟨_, h, h1, h3, h4⟩

/-- Claim C8 witness: the concrete successful call commits the
request's pointing and full filter name. -/
theorem c8_witness :
    ∃ s2 rec, attempt_observe cfg0 (init_state cfg0) req0 =
      .ok (s2, some rec) ∧ s2.ra = some req0.RA ∧
      s2.filtername = some req0.filter := by
  have h := attempt_observe_check_true_some cfg0 (init_state cfg0) req0 _ 1 1
    cfg0_check_true cfg0_commit_status cfg0_commit_fwhm.1 cfg0_commit_fwhm.2
  obtain ⟨h1, h2, h3⟩ := c8_theorem cfg0 (init_state cfg0) req0 _ _ h
  exact ⟨_, _, h, h1, h3⟩

/-- Claim C5: case analysis of the slew/filter cost computation.
Parked: both costs zero.  Filter differs: exactly the fixed
filter-change duration, zero slew.  Same filter: the fixed minimum slew
time (2 seconds) when the computed current alt/az exactly equals the
target alt/az, otherwise the interpolator value. -/
theorem c5_theorem (cfg : Config) (s : Obs) (o : Request) :
    (s.ra = none → visit_costs cfg s o = (0, 0)) ∧
    (∀ cra cdec, s.ra = some cra → s.dec = some cdec →
      (s.filtername ≠ some o.filter →
        visit_costs cfg s o = (cfg.f_change_time, 0)) ∧
      (s.filtername = some o.filter →
        (cfg.radec2altaz cra cdec s.mjd = cfg.radec2altaz o.RA o.dec s.mjd →
          visit_costs cfg s o = (0, 2)) ∧
        (cfg.radec2altaz cra cdec s.mjd ≠ cfg.radec2altaz o.RA o.dec s.mjd →
          visit_costs cfg s o = (0,
            cfg.slew_interp (cfg.radec2altaz cra cdec s.mjd).1
              (cfg.radec2altaz cra cdec s.mjd).2
              (cfg.radec2altaz o.RA o.dec s.mjd).1
              (cfg.radec2altaz o.RA o.dec s.mjd).2)))) := by
  constructor
  · intro hra
    simp only [visit_costs, hra]
  · intro cra cdec hra hdec
    constructor
    · intro hne
      simp only [visit_costs, hra, hdec]
      rw [if_pos hne]
    · intro heq
      constructor
      · intro haz
        simp only [visit_costs, hra, hdec]
        rw [if_neg (by simp [heq])]
        unfold slew_time
        dsimp only
        rw [if_pos ⟨congrArg Prod.fst haz, congrArg Prod.snd haz⟩]
      · intro hne2
        simp only [visit_costs, hra, hdec]
        rw [if_neg (by simp [heq])]
        unfold slew_time
        dsimp only
        rw [if_neg (fun hcon => hne2 (Prod.ext_iff.mpr hcon))]

/-- Claim C5 witness: the parked case and the filter-change case at
concrete inputs. -/
theorem c5_witness :
    visit_costs cfg0 (init_state cfg0) req0 = (0, 0) ∧
    visit_costs cfg0 obsTrack req0 = (cfg0.f_change_time, 0) := by
  constructor
  · exact (c5_theorem cfg0 (init_state cfg0) req0).1 rfl
  · exact ((c5_theorem cfg0 obsTrack req0).2 1 1 rfl rfl).1 (by decide)

/-- Claim C2 (amended): when the cloud fraction queried at the elapsed
time of the current clock is at or above the cloud limit, `check_mjd`
reports not-observable and proposes `m + cloud_step` for its gated
argument `m`; since `attempt_observe` gates the instant
`self.mjd + total_time`, the rejected call ends with the clock at the
pre-call clock plus the total visit duration plus `cloud_step`. -/
theorem c2_theorem (cfg : Config) (s : Obs) (o : Request)
    (h : cfg.cloud_model ((s.mjd - cfg.mjd_start) * 24 * 3600) ≥
      cfg.cloud_limit) :
    (∀ m, check_mjd cfg s m = (false, m + cfg.cloud_step)) ∧
    ∃ s2, attempt_observe cfg s o = .ok (s2, none) ∧
      s2.mjd = s.mjd + total_time cfg s o + cfg.cloud_step := by
  have hch : ∀ m, check_mjd cfg s m = (false, m + cfg.cloud_step) := by
    intro m
    unfold check_mjd
    rw [if_pos h]
  refine ⟨hch, ?_⟩
  have hf : (check_mjd cfg s (s.mjd + total_time cfg s o)).1 = false := by
    rw [hch (s.mjd + total_time cfg s o)]
  have hr := attempt_observe_check_false cfg s o hf
  have hjump : (check_mjd cfg s (s.mjd + total_time cfg s o)).2 =
      s.mjd + total_time cfg s o + cfg.cloud_step := by
    rw [hch (s.mjd + total_time cfg s o)]
  exact ⟨_, hr, hjump⟩

/-- Claim C2 counterexample: with the sky fully clouded, the clock
after the rejected attempt is NOT the pre-call clock plus exactly
`cloud_step` — the gate receives the pre-call clock plus the total
visit duration and adds `cloud_step` to that. -/
theorem c2_counterexample :
    cfgCloudy.cloud_model
        (((init_state cfgCloudy).mjd - cfgCloudy.mjd_start) * 24 * 3600) ≥
      cfgCloudy.cloud_limit ∧
    ∃ s2, attempt_observe cfgCloudy (init_state cfgCloudy) req0 =
      .ok (s2, none) ∧
      s2.mjd ≠ (init_state cfgCloudy).mjd + cfgCloudy.cloud_step := by
  refine ⟨by norm_num [cfgCloudy, cfg0, init_state], ?_⟩
  have hf : (check_mjd cfgCloudy (init_state cfgCloudy)
      ((init_state cfgCloudy).mjd +
        total_time cfgCloudy (init_state cfgCloudy) req0)).1 = false := by
    norm_num [check_mjd, cfgCloudy, cfg0]
  have hr := attempt_observe_check_false cfgCloudy (init_state cfgCloudy)
    req0 hf
  refine ⟨_, hr, ?_⟩
  show (check_mjd cfgCloudy (init_state cfgCloudy)
      ((init_state cfgCloudy).mjd +
        total_time cfgCloudy (init_state cfgCloudy) req0)).2 ≠ _
  norm_num [check_mjd, cfgCloudy, cfg0, init_state, total_time,
    visit_costs, req0, sec2days]

/-- Claim C2 witness for the amended statement: concrete clouded
scenario, clock ends at pre-call clock + total visit duration +
cloud step. -/
theorem c2_witness :
    ∃ s2, attempt_observe cfgCloudy (init_state cfgCloudy) req0 =
      .ok (s2, none) ∧
      s2.mjd = (init_state cfgCloudy).mjd +
        total_time cfgCloudy (init_state cfgCloudy) req0 +
        cfgCloudy.cloud_step := by
  obtain ⟨hch, s2, hok, hmjd⟩ := c2_theorem cfgCloudy (init_state cfgCloudy)
    req0 (by norm_num [cfgCloudy, cfg0, init_state])
  exact ⟨s2, hok, hmjd⟩

/-- Claim C1 (amended): `attempt_observe` performs no request
validation: an invalid request (exposure count below one, or a
missing/empty filter) is costed and gated like any other, and is never
rejected before Costing with the state unmutated.  When the gate
passes and the commit path has a snapshot: if the snapshot holds the
requested filter's per-filter entries (as it does for every supported
filter, hence for any exposure-count-below-one request with a
supported filter) the call commits, returning a populated record with
the clock, pointing and filter mutated; if the filter's entries are
absent (as for a missing/empty filter, which is outside the status
dictionary's fixed key set) the call raises the mid-commit `KeyError`
instead of returning the distinguished no-observation result. -/
theorem c1_theorem (cfg : Config) (s : Obs) (o : Request)
    (_hinv : o.nexp < 1 ∨ o.filter = "")
    (hc : (check_mjd cfg s (s.mjd + total_time cfg s o)).1 = true)
    (stat : Status) (hstat : (commit_mid cfg s o).status = some stat) :
    (∀ fe fg, stat.fwhm_eff o.filter (cfg.raDec2Hpid o.RA o.dec) = some fe →
      stat.fwhm_geom o.filter (cfg.raDec2Hpid o.RA o.dec) = some fg →
      ∃ s2 rec, attempt_observe cfg s o = .ok (s2, some rec) ∧
        s2.mjd = s.mjd + total_time cfg s o ∧ s2.ra = some o.RA ∧
        s2.filtername = some o.filter) ∧
    (stat.fwhm_eff o.filter (cfg.raDec2Hpid o.RA o.dec) = none →
      attempt_observe cfg s o = .error .keyError) := by
  constructor
  · intro fe fg hfe hfg
    have h := attempt_observe_check_true_some cfg s o stat fe fg hc hstat
      hfe hfg
    refine ⟨_, _, h, ?_, commit_mid_ra cfg s o, rfl⟩
    simp only [set_mjd]
    rw [commit_mid_mjd cfg s o]
    ring
  · intro hfe
    exact attempt_observe_check_true_keyError cfg s o stat hc hstat
      (Or.inl hfe)

/-- Claim C1 counterexample: a request with exposure count 0 (and a
supported filter) is not rejected before Costing: from the parked
initial state under a clear dark sky, `attempt_observe` runs the whole
pipeline, returns a populated record, and mutates the state (clock and
pointing). -/
theorem c1_counterexample :
    reqNexp0.nexp < 1 ∧
    ∃ s2 rec, attempt_observe cfg0 (init_state cfg0) reqNexp0 =
      .ok (s2, some rec) ∧ s2.mjd ≠ (init_state cfg0).mjd ∧
      s2.ra = some reqNexp0.RA := by
  have hc : (check_mjd cfg0 (init_state cfg0)
      ((init_state cfg0).mjd +
        total_time cfg0 (init_state cfg0) reqNexp0)).1 = true := by
    norm_num [check_mjd, cfg0, init_state, mjd2night, ssAux]
  have hstat : (commit_mid cfg0 (init_state cfg0) reqNexp0).status =
      some (mk_status cfg0 (commit_pre cfg0 (init_state cfg0) reqNexp0)) := by
    rw [commit_mid_status]
    norm_num [init_state]
  have h := attempt_observe_check_true_some cfg0 (init_state cfg0)
    reqNexp0 _ 1 1 hc hstat (by decide) (by decide)
  refine ⟨by norm_num [reqNexp0], _, _, h, ?_,
    commit_mid_ra cfg0 (init_state cfg0) reqNexp0⟩
  simp only [set_mjd]
  rw [commit_mid_mjd cfg0 (init_state cfg0) reqNexp0]
  norm_num [init_state, cfg0, total_time, visit_costs, reqNexp0, sec2days]

/-- Claim C1 witness for the amended statement: the exposure-count-zero
request with a supported filter is committed from the parked initial
state, and the missing-filter request raises the mid-commit `KeyError`
instead of being rejected. -/
theorem c1_witness :
    (∃ s2 rec, attempt_observe cfg0 (init_state cfg0) reqNexp0 =
      .ok (s2, some rec) ∧ s2.ra = some reqNexp0.RA) ∧
    attempt_observe cfg0 (init_state cfg0) reqInvalid =
      .error .keyError := by
  constructor
  · obtain ⟨s2, rec, hok, hmjd, hra, hfil⟩ :=
      (c1_theorem cfg0 (init_state cfg0) reqNexp0
        (Or.inl (by norm_num [reqNexp0]))
        (by norm_num [check_mjd, cfg0, init_state, mjd2night, ssAux])
        (mk_status cfg0 (commit_pre cfg0 (init_state cfg0) reqNexp0))
        (by rw [commit_mid_status]; norm_num [init_state])).1 1 1
        (by decide) (by decide)
    exact ⟨s2, rec, hok, hra⟩
  · exact (c1_theorem cfg0 (init_state cfg0) reqInvalid
      (Or.inr rfl)
      (by norm_num [check_mjd, cfg0, init_state, mjd2night, ssAux])
      (mk_status cfg0 (commit_pre cfg0 (init_state cfg0) reqInvalid))
      (by rw [commit_mid_status]; norm_num [init_state])).2 (by decide)

/-- Claim C6: on a sorted boundary table, `mjd2night` returns the count
of stored boundaries strictly below the query (0 before the first
boundary, the table length after the last); it is monotone
non-decreasing in the query; and around each boundary `k` it steps from
`k` (just below, within the gap to the previous boundary) to `k + 1`
(just above, within the gap to the next boundary). -/
theorem c6_theorem (bs : List ℚ) (hs : bs.Sorted (· ≤ ·)) :
    (∀ m, mjd2night bs m = bs.countP (fun b => decide (b < m))) ∧
    (∀ a b, a ≤ b → mjd2night bs a ≤ mjd2night bs b) ∧
    (∀ m, (∀ b ∈ bs, m ≤ b) → mjd2night bs m = 0) ∧
    (∀ m, (∀ b ∈ bs, b < m) → mjd2night bs m = bs.length) ∧
    (∀ k, k < bs.length → ∀ ε : ℚ, 0 < ε →
      (∀ j, j < k → bs.getD j 0 < bs.getD k 0 - ε) →
      mjd2night bs (bs.getD k 0 - ε) = k) ∧
    (∀ k, k < bs.length → ∀ ε : ℚ, 0 < ε →
      (∀ j, k < j → j < bs.length → bs.getD k 0 + ε ≤ bs.getD j 0) →
      mjd2night bs (bs.getD k 0 + ε) = k + 1) := by
  refine ⟨fun m => mjd2night_eq_countP bs hs m, ?_, ?_, ?_, ?_, ?_⟩
  · intro a b hab
    rw [mjd2night_eq_countP bs hs, mjd2night_eq_countP bs hs]
    apply List.countP_mono_left
    intro x _ hpx
    simp only [decide_eq_true_eq] at hpx ⊢
    linarith
  · intro m hm
    rw [mjd2night_eq_countP bs hs]
    apply List.countP_eq_zero.mpr
    intro b hb
    simp only [decide_eq_true_eq]
    exact not_lt.mpr (hm b hb)
  · intro m hm
    rw [mjd2night_eq_countP bs hs]
    apply List.countP_eq_length.mpr
    intro b hb
    simp only [decide_eq_true_eq]
    exact hm b hb
  · intro k hk ε hε hgap
    rw [mjd2night_eq_countP bs hs]
    apply countP_eq_of_index_iff _ bs k (by omega)
    intro i hi
    constructor
    · intro hlt
      by_contra hcon
      have hge : k ≤ i := by omega
      have hmono := getD_mono_of_sorted bs hs hge hi
      linarith
    · intro hik
      exact hgap i hik
  · intro k hk ε hε hgap
    rw [mjd2night_eq_countP bs hs]
    apply countP_eq_of_index_iff _ bs (k + 1) (by omega)
    intro i hi
    constructor
    · intro hlt
      by_contra hcon
      have hki : k < i := by omega
      have := hgap i hki hi
      linarith
    · intro hik
      have hike : i ≤ k := by omega
      have := getD_mono_of_sorted bs hs hike hk
      linarith

/-- Claim C6 witness: a concrete two-boundary table, queried between
the boundaries and just above the last boundary. -/
theorem c6_witness :
    mjd2night [(0 : ℚ), 10] 5 = 1 ∧ mjd2night [(0 : ℚ), 10] 11 = 2 := by
  obtain ⟨hcount, hmono, hzero, hlen, hbelow, habove⟩ :=
    c6_theorem [(0 : ℚ), 10] (by decide)
  constructor
  · rw [hcount 5]
    decide
  · have h2 := habove 1 (by norm_num) 1 (by norm_num)
      (by intro j h1 h2; simp at h2; omega)
    norm_num at h2
    exact h2

/-- Claim C7: when (with the cloud gate passing) the sun is above the
limit at the gated instant or its night is a down night, `check_mjd`
reports not-observable.  The proposed candidate is the head of the sky
timeline filtered by the dark-and-not-down predicate; on a time-sorted
timeline that head is the earliest timeline instant strictly after
`mjd`, dark, and not in a down night.  When no timeline instant
qualifies, the fallback candidate is `mjd + 1/4` day. -/
theorem c7_theorem (cfg : Config) (s : Obs) (mjd : ℚ)
    (hcloud : ¬ cfg.cloud_model ((s.mjd - cfg.mjd_start) * 24 * 3600) ≥
      cfg.cloud_limit)
    (hbad : cfg.sun_alt mjd > cfg.sun_limit ∨
      mjd2night cfg.setting_sun_mjds mjd ∈ cfg.down_nights) :
    (check_mjd cfg s mjd).1 = false ∧
    (cfg.sky_info.filter (good_instant cfg mjd) = [] →
      (check_mjd cfg s mjd).2 = mjd + 1/4) ∧
    (∀ p rest, cfg.sky_info.filter (good_instant cfg mjd) = p :: rest →
      (check_mjd cfg s mjd).2 = p.1 ∧ p ∈ cfg.sky_info ∧
      good_instant cfg mjd p = true ∧
      (cfg.sky_info.Sorted (fun a b => a.1 ≤ b.1) →
        ∀ q ∈ cfg.sky_info, good_instant cfg mjd q = true → p.1 ≤ q.1)) := by
  have hbase : check_mjd cfg s mjd =
      (match cfg.sky_info.filter (good_instant cfg mjd) with
       | [] => (false, mjd + 1/4)
       | p :: _ => (false, p.1)) := by
    unfold check_mjd
    rw [if_neg hcloud, if_pos hbad]
  refine ⟨?_, ?_, ?_⟩
  · rw [hbase]
    cases hfil : cfg.sky_info.filter (good_instant cfg mjd) with
    | nil => rfl
    | cons p rest => rfl
  · intro hemp
    rw [hbase, hemp]
  · intro p rest hfil
    rw [hbase, hfil]
    have hpmem : p ∈ cfg.sky_info.filter (good_instant cfg mjd) := by
      rw [hfil]
      exact List.mem_cons_self p rest
    refine ⟨rfl, (List.mem_filter.mp hpmem).1, (List.mem_filter.mp hpmem).2, ?_⟩
    intro hsorted q hq hgq
    have hsf : (cfg.sky_info.filter (good_instant cfg mjd)).Sorted
        (fun a b => a.1 ≤ b.1) := hsorted.filter _
    rw [hfil] at hsf
    have hq2 : q ∈ p :: rest := by
      rw [← hfil]
      exact List.mem_filter.mpr ⟨hq, hgq⟩
    rcases List.mem_cons.mp hq2 with rfl | hq3
    · exact le_refl _
    · exact (List.sorted_cons.mp hsf).1 q hq3

/-- Claim C7 witness: sun up, empty downtime calendar, two-entry dark
timeline; the gate rejects and proposes the first timeline instant. -/
theorem c7_witness :
    (check_mjd cfgDay (init_state cfgDay) 0).1 = false ∧
    (check_mjd cfgDay (init_state cfgDay) 0).2 = 1 := by
  have h := c7_theorem cfgDay (init_state cfgDay) 0
    (by norm_num [cfgDay, cfg0, init_state])
    (Or.inl (by norm_num [cfgDay, cfg0]))
  have hfil : cfgDay.sky_info.filter (good_instant cfgDay 0) =
      [((1 : ℚ), (-1 : ℚ)), ((2 : ℚ), (-1 : ℚ))] := by decide
  obtain ⟨h1, _, h3⟩ := h
  obtain ⟨he, _, _, _⟩ := h3 ((1 : ℚ), (-1 : ℚ)) [((2 : ℚ), (-1 : ℚ))] hfil
  exact ⟨h1, he⟩

end SpeedObs
